import Mathlib

/-!
Verification of the hivemind MoE server connection handler
(`src/hivemind/moe/server/connection_handler.py`).

The embedding models wire tensors as their serialized byte sequences and keeps
the torch tensor type `T` and the compression-policy type `C` abstract, since
the tensor codec and the worker pool are external collaborators of this core.
Submissions to a worker queue are instrumented with an explicit log so that the
single-submission properties can be stated.
-/

namespace Hivemind

variable {T C : Type}

/-- Bytes of one serialized (wire-format) tensor message. -/
abbrev WireTensor := List Nat

/-- Wire shape of one request frame: `runtime_pb2.ExpertRequest` with fields
`uid` and `tensors`. -/
structure ExpertRequest where
  uid : String
  tensors : List WireTensor
deriving DecidableEq

/-- Wire shape of one response frame: `runtime_pb2.ExpertResponse` with field
`tensors`. -/
structure ExpertResponse where
  tensors : List WireTensor
deriving DecidableEq

/-- Wire shape of the info reply: `runtime_pb2.ExpertInfo`. -/
structure ExpertInfo where
  serialized_info : List Nat
deriving DecidableEq

/-- Errors a single call can fail with.  `keyError` is the Python `KeyError`
raised by `self.experts[uid]` (the UnknownUnit failure of the spec; the key is
an `Option` because the streamed paths look up the uid gathered from the
frames, which is `None` when no frame arrived).  `protocolViolation` is the
`AssertionError` raised by `_RequestUnpacker` when frame uids differ. -/
inductive CallError where
  | keyError : Option String → CallError
  | protocolViolation : CallError
deriving DecidableEq

/-- Per-position descriptor of the schema of a compute unit; only its
`compression` field is consumed by this core
(`hivemind.utils.tensor_descr.BatchTensorDescriptor`). -/
structure BatchTensorDescriptor (C : Type) where
  compression : C
deriving DecidableEq

/-- Schema of a compute unit as annotated in `_process_inputs`: a single
descriptor or a tuple of descriptors. -/
inductive Schema (α : Type) where
  | single : α → Schema α
  | tuple : List α → Schema α
deriving DecidableEq

/-- Modelled from the spec: `hivemind.utils.nested_flatten` is not under
`src/`; it flattens the (possibly nested) schema into the ordered flat
sequence of per-position descriptors (spec section 3, Schema). -/
def nested_flatten : Schema α → List α
  | Schema.single a => [a]
  | Schema.tuple as => as

/-- Log of submissions to worker queues: one entry `(queue id, input tuple)`
per call to `submit_task`. -/
abbrev SubmissionLog (T : Type) := List (Nat × List T)

/-- External worker queue (`hivemind.moe.server.task_pool.TaskPool`): accepts
an input tuple and returns an output tuple; its batching policy is opaque, so
it is modelled as a function plus an identity used by the submission log. -/
structure TaskPool (T : Type) where
  pool_id : Nat
  run : List T → List T

/-- Submission of one input tuple to a worker queue; the second component is
the submission log entry this produces. -/
def TaskPool.submit_task (pool : TaskPool T) (inputs : List T) :
    List T × SubmissionLog T :=
  (pool.run inputs, [(pool.pool_id, inputs)])

/-- External expert backend (`hivemind.moe.server.expert_backend`): its
forward and backward queues, its output and gradient-input schemas and its
(already serialized) descriptive metadata blob. -/
structure ExpertBackend (T C : Type) where
  forward_pool : TaskPool T
  backward_pool : TaskPool T
  outputs_schema : Schema (BatchTensorDescriptor C)
  grad_inputs_schema : Schema (BatchTensorDescriptor C)
  info : List Nat

/-- Python dict item access `experts[uid]`: returns the backend registered
under `uid` or fails with `KeyError uid`.  The key is an `Option` because the
streamed paths index with the gathered uid, which may be `None`. -/
def dictGetItem (experts : List (String × ExpertBackend T C)) (uid : Option String) :
    Except CallError (ExpertBackend T C) :=
  match uid with
  | none => Except.error (CallError.keyError none)
  | some u =>
    match experts.lookup u with
    | none => Except.error (CallError.keyError (some u))
    | some e => Except.ok e

/-- Modelled from the spec: `DEFAULT_MAX_MSG_SIZE` from
`hivemind.p2p.p2p_daemon` is not under `src/`; the spec fixes it as the
maximum single-message size supported by the transport, a fixed positive
constant (4 MiB). -/
def DEFAULT_MAX_MSG_SIZE : Nat := 4 * 1024 * 1024

/-- Modelled from the spec: worker loop of `split_for_streaming`.  The fuel
argument (instantiated with the message length) only makes the recursion
structural; with `chunk_size` positive it is never exhausted. -/
def split_go (chunk_size : Nat) : Nat → WireTensor → List WireTensor
  | _, [] => []
  | 0, msg => [msg]
  | fuel + 1, b :: rest =>
      (b :: rest).take chunk_size :: split_go chunk_size fuel ((b :: rest).drop chunk_size)

/-- Modelled from the spec: `hivemind.utils.grpc.split_for_streaming` is not
under `src/`; per spec section 4.1 it splits one serialized message into an
ordered sequence of fragments that individually fit the size bound and that
concatenate, in order, back to the exact original serialized bytes. -/
def split_for_streaming (msg : WireTensor) (chunk_size : Nat) : List WireTensor :=
  split_go chunk_size msg.length msg

/-- State of `ConnectionHandler._RequestUnpacker`: the uid claimed by the
first frame seen, `none` before any frame arrived. -/
structure _RequestUnpacker where
  uid : Option String
deriving DecidableEq

/-- Body of `_RequestUnpacker.__call__`: the first frame claims its uid, every
later frame must carry the same uid (`assert self.uid == request.uid`, the
protocol violation of the spec); returns the updated unpacker and the wire
tensors of the frame. -/
def _RequestUnpacker.call (self : _RequestUnpacker) (request : ExpertRequest) :
    Except CallError (_RequestUnpacker × List WireTensor) :=
  match self.uid with
  | none => Except.ok (⟨some request.uid⟩, request.tensors)
  | some u =>
      if u = request.uid then Except.ok (⟨some u⟩, request.tensors)
      else Except.error CallError.protocolViolation

/-- Modelled from the spec: `hivemind.utils.grpc.gather_from_rpc` is not under
`src/`; per spec section 4.2 it feeds every frame, in arrival order, through
the unpacker, accumulates the yielded wire tensors in frame order and
deserializes each; here it additionally returns the final unpacker state,
which the caller reads the claimed uid from. -/
def gather_from_rpc (requests : List ExpertRequest) (unpacker : _RequestUnpacker)
    (deserializer : WireTensor → T) :
    Except CallError (_RequestUnpacker × List T) :=
  match requests with
  | [] => Except.ok (unpacker, [])
  | r :: rs =>
    match unpacker.call r with
    | Except.error e => Except.error e
    | Except.ok (u1, ts) =>
      match gather_from_rpc rs u1 deserializer with
      | Except.error e => Except.error e
      | Except.ok (u2, rest) => Except.ok (u2, ts.map deserializer ++ rest)

/-- The connection handler: the read-only uid registry handed to it at
construction, plus the external tensor codec (`deserialize_torch_tensor` and
`serialize_torch_tensor`, abstract here). -/
structure ConnectionHandler (T C : Type) where
  experts : List (String × ExpertBackend T C)
  deserialize : WireTensor → T
  serialize : T → C → WireTensor

/-- `ConnectionHandler.rpc_info`: metadata blob of the unit registered under
`uid`, or `KeyError`. -/
def ConnectionHandler.rpc_info (H : ConnectionHandler T C) (uid : String) :
    Except CallError ExpertInfo :=
  match dictGetItem H.experts (some uid) with
  | Except.error e => Except.error e
  | Except.ok expert => Except.ok ⟨expert.info⟩

/-- `ConnectionHandler._gather_inputs`: runs `gather_from_rpc` with a fresh
unpacker and returns the claimed uid together with the deserialized inputs. -/
def ConnectionHandler._gather_inputs (H : ConnectionHandler T C)
    (requests : List ExpertRequest) :
    Except CallError (Option String × List T) :=
  match gather_from_rpc requests ⟨none⟩ H.deserialize with
  | Except.error e => Except.error e
  | Except.ok (unpacker, inputs) => Except.ok (unpacker.uid, inputs)

/-- `ConnectionHandler._process_inputs`: submits the input tuple to the given
queue, then serializes each output tensor zipped with the per-position
compression policy of the flattened schema. -/
def ConnectionHandler._process_inputs (H : ConnectionHandler T C) (inputs : List T)
    (pool : TaskPool T) (schema : Schema (BatchTensorDescriptor C)) :
    List WireTensor × SubmissionLog T :=
  match pool.submit_task inputs with
  | (outputs, log) =>
    (List.zipWith (fun t p => H.serialize t p.compression) outputs (nested_flatten schema), log)

/-- `ConnectionHandler.rpc_forward`: deserializes the request tensors in
order, looks up the unit, dispatches to its forward queue with its output
schema and returns one response frame. -/
def ConnectionHandler.rpc_forward (H : ConnectionHandler T C) (request : ExpertRequest) :
    Except CallError (ExpertResponse × SubmissionLog T) :=
  let inputs := request.tensors.map H.deserialize
  match dictGetItem H.experts (some request.uid) with
  | Except.error e => Except.error e
  | Except.ok expert =>
    match H._process_inputs inputs expert.forward_pool expert.outputs_schema with
    | (tensors, log) => Except.ok (⟨tensors⟩, log)

/-- `ConnectionHandler.rpc_forward_stream`: gathers all input frames, performs
the same dispatch as `rpc_forward`, splits each serialized output tensor into
fragments bounded by `DEFAULT_MAX_MSG_SIZE / 2` and emits one response frame
per fragment, in order. -/
def ConnectionHandler.rpc_forward_stream (H : ConnectionHandler T C)
    (requests : List ExpertRequest) :
    Except CallError (List ExpertResponse × SubmissionLog T) :=
  match H._gather_inputs requests with
  | Except.error e => Except.error e
  | Except.ok (uid, inputs) =>
    match dictGetItem H.experts uid with
    | Except.error e => Except.error e
    | Except.ok expert =>
      match H._process_inputs inputs expert.forward_pool expert.outputs_schema with
      | (serialized, log) =>
        let output_split :=
          serialized.flatMap fun t => split_for_streaming t (DEFAULT_MAX_MSG_SIZE / 2)
        Except.ok (output_split.map fun part => (⟨[part]⟩ : ExpertResponse), log)

/-- `ConnectionHandler.rpc_backward`: as `rpc_forward` but dispatching to the
backward queue with the gradient-input schema. -/
def ConnectionHandler.rpc_backward (H : ConnectionHandler T C) (request : ExpertRequest) :
    Except CallError (ExpertResponse × SubmissionLog T) :=
  let inputs_and_grads := request.tensors.map H.deserialize
  match dictGetItem H.experts (some request.uid) with
  | Except.error e => Except.error e
  | Except.ok expert =>
    match H._process_inputs inputs_and_grads expert.backward_pool expert.grad_inputs_schema with
    | (tensors, log) => Except.ok (⟨tensors⟩, log)

/-- `ConnectionHandler.rpc_backward_stream`: as `rpc_forward_stream` but
dispatching to the backward queue with the gradient-input schema. -/
def ConnectionHandler.rpc_backward_stream (H : ConnectionHandler T C)
    (requests : List ExpertRequest) :
    Except CallError (List ExpertResponse × SubmissionLog T) :=
  match H._gather_inputs requests with
  | Except.error e => Except.error e
  | Except.ok (uid, inputs_and_grads) =>
    match dictGetItem H.experts uid with
    | Except.error e => Except.error e
    | Except.ok expert =>
      match H._process_inputs inputs_and_grads expert.backward_pool expert.grad_inputs_schema with
      | (serialized, log) =>
        let output_split :=
          serialized.flatMap fun t => split_for_streaming t (DEFAULT_MAX_MSG_SIZE / 2)
        Except.ok (output_split.map fun part => (⟨[part]⟩ : ExpertResponse), log)

/-- A unit with forward and backward directions interchanged: queues swapped
and schemas swapped. -/
def ExpertBackend.swapDirections (e : ExpertBackend T C) : ExpertBackend T C :=
  ⟨e.backward_pool, e.forward_pool, e.grad_inputs_schema, e.outputs_schema, e.info⟩

/-- The handler with every registered unit direction-swapped. -/
def ConnectionHandler.swapDirections (H : ConnectionHandler T C) : ConnectionHandler T C :=
  ⟨H.experts.map fun kv => (kv.1, kv.2.swapDirections), H.deserialize, H.serialize⟩

/-- Observable steps of `ConnectionHandler.run`, the handler process
lifecycle: the two readiness resolutions (`self.ready.set_result` and
`self.ready.set_exception`), the transport join plus procedure registration
(`dht.replicate_p2p` and `add_p2p_handlers`), and the indefinite serving wait
(`await asyncio.Future()`). -/
inductive RunOp (E : Type) where
  | setResult : RunOp E
  | joinAndRegister : RunOp E
  | setException : E → RunOp E
  | serveForever : RunOp E
deriving DecidableEq

/-- Shallow embedding of `ConnectionHandler.run` as the trace of its
observable steps, parameterized by whether the transport join and
registration inside `_run` succeed or raise.  In the source,
`self.ready.set_result(None)` is executed before
`loop.run_until_complete(_run())`, so `setResult` precedes every other step;
only then does the loop attempt joining and registration, and on an exception
the handler inside `_run` performs `self.ready.set_exception(e)`. -/
def ConnectionHandler.runTrace {E : Type} (joinResult : Except E Unit) : List (RunOp E) :=
  RunOp.setResult ::
    match joinResult with
    | Except.ok _ => [RunOp.joinAndRegister, RunOp.serveForever]
    | Except.error e => [RunOp.joinAndRegister, RunOp.setException e]

/-- Whether a run step resolves the readiness signal. -/
def RunOp.isReadyResolution {E : Type} : RunOp E → Bool
  | RunOp.setResult => true
  | RunOp.setException _ => true
  | _ => false

/-- Concrete forward queue used by the evaluation witnesses: doubles every
input value. -/
def demoForwardPool : TaskPool Nat := ⟨0, fun l => l.map fun t => 2 * t⟩

/-- Concrete backward queue used by the evaluation witnesses. -/
def demoBackwardPool : TaskPool Nat := ⟨1, fun l => l.map fun t => t + 1⟩

/-- Concrete two-position output schema used by the evaluation witnesses. -/
def demoOutputsSchema : Schema (BatchTensorDescriptor Nat) := Schema.tuple [⟨5⟩, ⟨6⟩]

/-- Concrete two-position gradient-input schema used by the evaluation
witnesses. -/
def demoGradSchema : Schema (BatchTensorDescriptor Nat) := Schema.tuple [⟨7⟩, ⟨8⟩]

/-- Concrete expert used by the evaluation witnesses. -/
def demoExpert : ExpertBackend Nat Nat :=
  ⟨demoForwardPool, demoBackwardPool, demoOutputsSchema, demoGradSchema, [9]⟩

/-- Concrete handler used by the evaluation witnesses: one registered unit,
a codec that deserializes a wire tensor to the sum of its bytes and
serializes a value with its compression policy as a two-byte message. -/
def demoHandler : ConnectionHandler Nat Nat :=
  ⟨[("expert0", demoExpert)], List.sum, fun t c => [t, c]⟩

/-- Concrete handler with an empty registry, used by the unknown-unit
witness. -/
def demoEmptyHandler : ConnectionHandler Nat Nat := ⟨[], List.sum, fun t c => [t, c]⟩

/-- Concatenating the fragments produced by the splitting loop restores the
original bytes, for any fuel and any chunk size. -/
theorem split_go_flatten (chunk_size : Nat) :
    ∀ (fuel : Nat) (msg : WireTensor), (split_go chunk_size fuel msg).flatten = msg := by
  intro fuel
  induction fuel with
  | zero =>
    intro msg
    cases msg with
    | nil => rfl
    | cons b rest => simp [split_go]
  | succ fuel ih =>
    intro msg
    cases msg with
    | nil => rfl
    | cons b rest =>
      simp only [split_go, List.flatten_cons, ih]
      exact List.take_append_drop chunk_size (b :: rest)

/-- Every fragment produced by the splitting loop fits the chunk size, as
long as the chunk size is positive and the fuel covers the message length. -/
theorem split_go_length_le (chunk_size : Nat) (hc : 1 ≤ chunk_size) :
    ∀ (fuel : Nat) (msg : WireTensor), msg.length ≤ fuel →
      ∀ p ∈ split_go chunk_size fuel msg, p.length ≤ chunk_size := by
  intro fuel
  induction fuel with
  | zero =>
    intro msg hlen p hp
    cases msg with
    | nil => simp [split_go] at hp
    | cons b rest => simp at hlen
  | succ fuel ih =>
    intro msg hlen p hp
    cases msg with
    | nil => simp [split_go] at hp
    | cons b rest =>
      simp only [split_go, List.mem_cons] at hp
      cases hp with
      | inl h =>
        subst h
        calc ((b :: rest).take chunk_size).length = min chunk_size (b :: rest).length :=
              List.length_take chunk_size (b :: rest)
          _ ≤ chunk_size := Nat.min_le_left _ _
      | inr h =>
        refine ih ((b :: rest).drop chunk_size) ?_ p h
        have hdrop : ((b :: rest).drop chunk_size).length = (b :: rest).length - chunk_size :=
          List.length_drop chunk_size (b :: rest)
        simp only [List.length_cons] at hlen hdrop
        omega

/-- Reassembly: concatenating the ordered fragments of a split reconstructs
the original serialized bytes. -/
theorem split_for_streaming_flatten (msg : WireTensor) (chunk_size : Nat) :
    (split_for_streaming msg chunk_size).flatten = msg :=
  split_go_flatten chunk_size msg.length msg

/-- Size bound: every fragment of a split with positive chunk size fits the
chunk size. -/
theorem split_for_streaming_length_le (msg : WireTensor) (chunk_size : Nat)
    (hc : 1 ≤ chunk_size) :
    ∀ p ∈ split_for_streaming msg chunk_size, p.length ≤ chunk_size :=
  split_go_length_le chunk_size hc msg.length msg (Nat.le_refl _)

/-- Gathering from a claimed uid over frames that all carry that uid succeeds
and accumulates their deserialized tensors in frame order. -/
theorem gather_from_rpc_all_eq (deserializer : WireTensor → T) (u : String) :
    ∀ (rs : List ExpertRequest), (∀ r ∈ rs, r.uid = u) →
      gather_from_rpc rs ⟨some u⟩ deserializer =
        Except.ok (⟨some u⟩, (rs.flatMap fun r => r.tensors).map deserializer) := by
  intro rs
  induction rs with
  | nil => intro _; rfl
  | cons r rest ih =>
    intro hall
    have hr : r.uid = u := hall r (List.mem_cons_self r rest)
    have hrest : ∀ x ∈ rest, x.uid = u := fun x hx => hall x (List.mem_cons_of_mem r hx)
    simp [gather_from_rpc, _RequestUnpacker.call, hr, ih hrest, List.flatMap_cons,
      List.map_append]

/-- Gathering from a claimed uid fails with the protocol violation as soon as
some frame carries a different uid. -/
theorem gather_from_rpc_mismatch (deserializer : WireTensor → T) (u : String) :
    ∀ (rs : List ExpertRequest), (∃ r ∈ rs, r.uid ≠ u) →
      gather_from_rpc rs ⟨some u⟩ deserializer = Except.error CallError.protocolViolation := by
  intro rs
  induction rs with
  | nil => intro h; exact absurd h (by simp)
  | cons r rest ih =>
    intro h
    by_cases hr : u = r.uid
    · have hrest : ∃ x ∈ rest, x.uid ≠ u := by
        rcases h with ⟨x, hx, hxu⟩
        cases List.mem_cons.mp hx with
        | inl hxr => exact absurd (hxr ▸ hr.symm) hxu
        | inr hxr => exact ⟨x, hxr, hxu⟩
      simp only [gather_from_rpc, _RequestUnpacker.call, if_pos hr, ih hrest]
    · simp only [gather_from_rpc, _RequestUnpacker.call, if_neg hr]

/-- Looking up in a registry whose values were mapped commutes with the
mapping. -/
theorem lookup_map_value {β γ : Type} (f : β → γ) (u : String) :
    ∀ (l : List (String × β)),
      (l.map fun kv => (kv.1, f kv.2)).lookup u = (l.lookup u).map f := by
  intro l
  induction l with
  | nil => rfl
  | cons kv rest ih =>
    obtain ⟨k, v⟩ := kv
    by_cases h : u = k
    · subst h
      simp [List.lookup]
    · have hb : (u == k) = false := by simp [h]
      simp [List.lookup, hb, ih]

/-- Gathering a nonempty frame sequence whose frames all share the uid of the
first frame succeeds with that uid and with the deserialized concatenation of
the tensors of all frames, in frame order. -/
theorem _gather_inputs_all_eq (H : ConnectionHandler T C) (r0 : ExpertRequest)
    (rest : List ExpertRequest) (hrest : ∀ r ∈ rest, r.uid = r0.uid) :
    H._gather_inputs (r0 :: rest) =
      Except.ok (some r0.uid, ((r0 :: rest).flatMap fun r => r.tensors).map H.deserialize) := by
  have hstep : gather_from_rpc (r0 :: rest) ⟨none⟩ H.deserialize =
      match gather_from_rpc rest ⟨some r0.uid⟩ H.deserialize with
      | Except.error e => Except.error e
      | Except.ok (u2, rs) => Except.ok (u2, r0.tensors.map H.deserialize ++ rs) := rfl
  simp only [ConnectionHandler._gather_inputs, hstep,
    gather_from_rpc_all_eq H.deserialize r0.uid rest hrest, List.flatMap_cons, List.map_append]

/-- Gathering a frame sequence whose first frame is followed by a frame with
a different uid fails with the protocol violation. -/
theorem _gather_inputs_mismatch (H : ConnectionHandler T C) (r0 : ExpertRequest)
    (rest : List ExpertRequest) (hex : ∃ r ∈ rest, r.uid ≠ r0.uid) :
    H._gather_inputs (r0 :: rest) = Except.error CallError.protocolViolation := by
  have hstep : gather_from_rpc (r0 :: rest) ⟨none⟩ H.deserialize =
      match gather_from_rpc rest ⟨some r0.uid⟩ H.deserialize with
      | Except.error e => Except.error e
      | Except.ok (u2, rs) => Except.ok (u2, r0.tensors.map H.deserialize ++ rs) := rfl
  simp only [ConnectionHandler._gather_inputs, hstep,
    gather_from_rpc_mismatch H.deserialize r0.uid rest hex]

/-- C1: the claim states that the readiness signal resolves exactly once per
process lifetime, to success only once transport joining and registration of
the RPC procedures have completed, or to the encountered startup error if
they raise.  The code violates this: `run` executes
`self.ready.set_result(None)` before `loop.run_until_complete(_run())`, so
the success resolution precedes joining and registration even on a
successful run, and a run whose join raises additionally attempts a second,
exception resolution of the already resolved readiness future. -/
theorem c1_readiness_resolved_before_registration :
    ConnectionHandler.runTrace (Except.ok () : Except String Unit) =
      [RunOp.setResult, RunOp.joinAndRegister, RunOp.serveForever]
    ∧ ConnectionHandler.runTrace (Except.error "join failed" : Except String Unit) =
        [RunOp.setResult, RunOp.joinAndRegister, RunOp.setException "join failed"]
    ∧ ((ConnectionHandler.runTrace (Except.error "join failed" : Except String Unit)).filter
        RunOp.isReadyResolution).length = 2 :=
  ⟨rfl, rfl, rfl⟩

/-- C5: for every streamed frame sequence with at least one frame, the
gathering step claims the uid of the first frame; if every frame carries that
uid it returns the claimed uid with the tensors of all frames accumulated in
frame order and deserialized, and if any frame carries a different uid the
call fails with the protocol violation, without silently picking a uid. -/
theorem c5_uid_consistency (H : ConnectionHandler T C) (r0 : ExpertRequest)
    (rest : List ExpertRequest) :
    ((∀ r ∈ r0 :: rest, r.uid = r0.uid) →
      H._gather_inputs (r0 :: rest) =
        Except.ok (some r0.uid, ((r0 :: rest).flatMap fun r => r.tensors).map H.deserialize))
    ∧ ((∃ r ∈ r0 :: rest, r.uid ≠ r0.uid) →
      H._gather_inputs (r0 :: rest) = Except.error CallError.protocolViolation) := by
  constructor
  · intro hall
    exact _gather_inputs_all_eq H r0 rest fun r hr => hall r (List.mem_cons_of_mem r0 hr)
  · intro hex
    refine _gather_inputs_mismatch H r0 rest ?_
    rcases hex with ⟨r, hr, hne⟩
    cases List.mem_cons.mp hr with
    | inl h => exact absurd (by rw [h]) hne
    | inr h => exact ⟨r, h, hne⟩

/-- Evaluation of C5 on concrete inputs: two frames sharing one uid gather
successfully; two frames with different uids fail with the protocol
violation. -/
theorem c5_uid_consistency_witness :
    ((∀ r ∈ [(⟨"expert0", [[1]]⟩ : ExpertRequest), ⟨"expert0", [[2]]⟩], r.uid = "expert0") ∧
      demoHandler._gather_inputs [⟨"expert0", [[1]]⟩, ⟨"expert0", [[2]]⟩] =
        Except.ok (some "expert0", [1, 2]))
    ∧ ((∃ r ∈ [(⟨"expert0", [[1]]⟩ : ExpertRequest), ⟨"other", [[2]]⟩], r.uid ≠ "expert0") ∧
      demoHandler._gather_inputs [⟨"expert0", [[1]]⟩, ⟨"other", [[2]]⟩] =
        Except.error CallError.protocolViolation) := by
  refine ⟨⟨by decide, ?_⟩, ⟨by decide, ?_⟩⟩
  · exact (c5_uid_consistency demoHandler ⟨"expert0", [[1]]⟩ [⟨"expert0", [[2]]⟩]).1 (by decide)
  · exact (c5_uid_consistency demoHandler ⟨"expert0", [[1]]⟩ [⟨"other", [[2]]⟩]).2 (by decide)

/-- C6: calling info, forward or backward with a uid that is not in the
registry fails with the unknown-unit error (the `KeyError` of the registry
lookup), surfaced as a failure of that call alone: the functions return the
error as a value instead of diverging. -/
theorem c6_unknown_unit (H : ConnectionHandler T C) (uid : String) (ts : List WireTensor)
    (h : H.experts.lookup uid = none) :
    H.rpc_info uid = Except.error (CallError.keyError (some uid))
    ∧ H.rpc_forward ⟨uid, ts⟩ = Except.error (CallError.keyError (some uid))
    ∧ H.rpc_backward ⟨uid, ts⟩ = Except.error (CallError.keyError (some uid)) := by
  refine ⟨?_, ?_, ?_⟩ <;>
    simp [ConnectionHandler.rpc_info, ConnectionHandler.rpc_forward,
      ConnectionHandler.rpc_backward, dictGetItem, h]

/-- Evaluation of C6 on a concrete unregistered uid. -/
theorem c6_unknown_unit_witness :
    demoEmptyHandler.experts.lookup "expert0" = none
    ∧ (demoEmptyHandler.rpc_info "expert0" = Except.error (CallError.keyError (some "expert0"))
      ∧ demoEmptyHandler.rpc_forward ⟨"expert0", [[1]]⟩ =
          Except.error (CallError.keyError (some "expert0"))
      ∧ demoEmptyHandler.rpc_backward ⟨"expert0", [[1]]⟩ =
          Except.error (CallError.keyError (some "expert0"))) :=
  ⟨rfl, c6_unknown_unit demoEmptyHandler "expert0" [[1]] rfl⟩

/-- C9: gathering the empty frame sequence does not fail with a protocol
violation: it returns a `none` uid together with the empty tensor list, and
the streamed forward call then fails at the registry lookup with the
unknown-key error for the `none` uid. -/
theorem c9_empty_stream (H : ConnectionHandler T C) :
    H._gather_inputs [] = Except.ok (none, [])
    ∧ H.rpc_forward_stream [] = Except.error (CallError.keyError none) :=
  ⟨rfl, rfl⟩

/-- C10: the number of serialized tensors produced by `_process_inputs`
equals the minimum of the length of the output tuple of the worker queue and
the length of the flattened schema; surplus entries on either side are
dropped by the pairwise zip and no error is raised (the function is total). -/
theorem c10_zip_truncates (H : ConnectionHandler T C) (inputs : List T) (pool : TaskPool T)
    (schema : Schema (BatchTensorDescriptor C)) :
    (H._process_inputs inputs pool schema).1.length
      = min (pool.run inputs).length (nested_flatten schema).length := by
  simp [ConnectionHandler._process_inputs, TaskPool.submit_task, List.length_zipWith]

/-- C2: for every registered uid and every request whose worker queue answers
with as many output tensors as the flattened output schema has positions, the
unary forward call deserializes the wire tensors of the request in order,
submits them as one input tuple to the forward queue of that unit (exactly
one submission), serializes each output tensor with the per-position
compression policy of the flattened output schema and returns all serialized
outputs as one response frame. -/
theorem c2_rpc_forward_contract (H : ConnectionHandler T C) (request : ExpertRequest)
    (expert : ExpertBackend T C)
    (hreg : dictGetItem H.experts (some request.uid) = Except.ok expert)
    (hlen : (expert.forward_pool.run (request.tensors.map H.deserialize)).length
              = (nested_flatten expert.outputs_schema).length) :
    H.rpc_forward request =
      Except.ok
        (⟨List.zipWith (fun t p => H.serialize t p.compression)
            (expert.forward_pool.run (request.tensors.map H.deserialize))
            (nested_flatten expert.outputs_schema)⟩,
          [(expert.forward_pool.pool_id, request.tensors.map H.deserialize)])
    ∧ (List.zipWith (fun t p => H.serialize t p.compression)
          (expert.forward_pool.run (request.tensors.map H.deserialize))
          (nested_flatten expert.outputs_schema)).length
        = (expert.forward_pool.run (request.tensors.map H.deserialize)).length := by
  constructor
  · simp [ConnectionHandler.rpc_forward, hreg, ConnectionHandler._process_inputs,
      TaskPool.submit_task]
  · rw [List.length_zipWith, hlen, Nat.min_self]

/-- Evaluation of C2: the demo unit doubles each input; the response carries
one frame with each doubled output serialized under its schema policy, and
the log records exactly one submission to the forward queue. -/
theorem c2_rpc_forward_contract_witness :
    demoHandler.rpc_forward ⟨"expert0", [[1], [2]]⟩ =
      Except.ok ((⟨[[2, 5], [4, 6]]⟩ : ExpertResponse), [(0, [1, 2])])
    ∧ ([[2, 5], [4, 6]] : List WireTensor).length = ([2, 4] : List Nat).length :=
  c2_rpc_forward_contract demoHandler ⟨"expert0", [[1], [2]]⟩ demoExpert rfl rfl

/-- C3: a streamed forward call with at least one frame, whose frames all
carry the uid of a unary request and whose tensor sequences concatenate in
frame order to the tensors of that request, performs the same single dispatch
to the forward queue as the unary call (same submission log) and emits, as
one-fragment frames, exactly the fragments of the same serialized output
tensors that the unary call returns; concatenating the fragments of each
output tensor restores that serialized tensor. -/
theorem c3_stream_matches_unary (H : ConnectionHandler T C) (r0 : ExpertRequest)
    (rest : List ExpertRequest) (request : ExpertRequest) (resp : ExpertResponse)
    (log : SubmissionLog T)
    (huid : ∀ r ∈ r0 :: rest, r.uid = request.uid)
    (htens : ((r0 :: rest).flatMap fun r => r.tensors) = request.tensors)
    (hfwd : H.rpc_forward request = Except.ok (resp, log)) :
    H.rpc_forward_stream (r0 :: rest) =
      Except.ok
        ((resp.tensors.flatMap fun t => split_for_streaming t (DEFAULT_MAX_MSG_SIZE / 2)).map
          fun part => (⟨[part]⟩ : ExpertResponse), log)
    ∧ ∀ t ∈ resp.tensors, (split_for_streaming t (DEFAULT_MAX_MSG_SIZE / 2)).flatten = t := by
  have hr0 : r0.uid = request.uid := huid r0 (List.mem_cons_self r0 rest)
  have hrest : ∀ r ∈ rest, r.uid = r0.uid := by
    intro r hr
    rw [huid r (List.mem_cons_of_mem r0 hr), hr0]
  have hgather := _gather_inputs_all_eq H r0 rest hrest
  rw [htens, hr0] at hgather
  simp only [ConnectionHandler.rpc_forward] at hfwd
  cases hE : dictGetItem H.experts (some request.uid) with
  | error e =>
    rw [hE] at hfwd
    exact absurd hfwd (by simp)
  | ok expert =>
    rw [hE] at hfwd
    simp only [ConnectionHandler._process_inputs, TaskPool.submit_task, Except.ok.injEq,
      Prod.mk.injEq] at hfwd
    obtain ⟨hresp, hlog⟩ := hfwd
    constructor
    · simp only [ConnectionHandler.rpc_forward_stream, hgather, hE,
        ConnectionHandler._process_inputs, TaskPool.submit_task, ← hresp, ← hlog]
    · intro t ht
      exact split_for_streaming_flatten t _

/-- Evaluation of C3: splitting the unary request of the C2 witness into one
empty frame and one frame carrying its tensors yields the same dispatch log
and the fragments of the same serialized outputs. -/
theorem c3_stream_matches_unary_witness :
    demoHandler.rpc_forward_stream [⟨"expert0", []⟩, ⟨"expert0", [[1], [2]]⟩] =
      Except.ok
        ((([[2, 5], [4, 6]] : List WireTensor).flatMap fun t =>
            split_for_streaming t (DEFAULT_MAX_MSG_SIZE / 2)).map
          fun part => (⟨[part]⟩ : ExpertResponse), [(0, [1, 2])])
    ∧ ∀ t ∈ ([[2, 5], [4, 6]] : List WireTensor),
        (split_for_streaming t (DEFAULT_MAX_MSG_SIZE / 2)).flatten = t :=
  c3_stream_matches_unary demoHandler ⟨"expert0", []⟩ [⟨"expert0", [[1], [2]]⟩]
    ⟨"expert0", [[1], [2]]⟩ ⟨[[2, 5], [4, 6]]⟩ [(0, [1, 2])] (by decide) rfl rfl

/-- C4: every successful streamed forward response consists of frames that
each carry exactly one fragment of length at most `DEFAULT_MAX_MSG_SIZE / 2`,
emitted in deterministic order: all fragments of serialized output tensor 0,
then all fragments of output tensor 1, and so on; the fragments of each
output tensor concatenate in order back to its exact serialized bytes. -/
theorem c4_stream_fragmentation (H : ConnectionHandler T C) (requests : List ExpertRequest)
    (frames : List ExpertResponse) (log : SubmissionLog T)
    (h : H.rpc_forward_stream requests = Except.ok (frames, log)) :
    (∀ f ∈ frames, f.tensors.length = 1
      ∧ ∀ p ∈ f.tensors, p.length ≤ DEFAULT_MAX_MSG_SIZE / 2)
    ∧ ∃ serialized : List WireTensor,
        frames = (serialized.flatMap fun t =>
            split_for_streaming t (DEFAULT_MAX_MSG_SIZE / 2)).map
          (fun part => (⟨[part]⟩ : ExpertResponse))
        ∧ ∀ t ∈ serialized, (split_for_streaming t (DEFAULT_MAX_MSG_SIZE / 2)).flatten = t := by
  simp only [ConnectionHandler.rpc_forward_stream] at h
  split at h
  · exact absurd h (by simp)
  · split at h
    · exact absurd h (by simp)
    · simp only [Except.ok.injEq, Prod.mk.injEq] at h
      obtain ⟨hframes, hlog⟩ := h
      subst hframes
      constructor
      · intro f hf
        simp only [List.mem_map] at hf
        obtain ⟨part, hpart, rfl⟩ := hf
        refine ⟨rfl, ?_⟩
        intro q hq
        simp only [List.mem_singleton] at hq
        subst hq
        simp only [List.mem_flatMap] at hpart
        obtain ⟨t, ht, hqt⟩ := hpart
        exact split_for_streaming_length_le t _ (by decide) q hqt
      · exact ⟨_, rfl, fun t ht => split_for_streaming_flatten t _⟩

/-- Evaluation of C4 on the concrete streamed call of the C3 witness. -/
theorem c4_stream_fragmentation_witness :
    (∀ f ∈ (([[2, 5], [4, 6]] : List WireTensor).flatMap fun t =>
          split_for_streaming t (DEFAULT_MAX_MSG_SIZE / 2)).map
        (fun part => (⟨[part]⟩ : ExpertResponse)),
      f.tensors.length = 1 ∧ ∀ p ∈ f.tensors, p.length ≤ DEFAULT_MAX_MSG_SIZE / 2)
    ∧ ∃ serialized : List WireTensor,
        (([[2, 5], [4, 6]] : List WireTensor).flatMap fun t =>
            split_for_streaming t (DEFAULT_MAX_MSG_SIZE / 2)).map
          (fun part => (⟨[part]⟩ : ExpertResponse)) =
          (serialized.flatMap fun t =>
              split_for_streaming t (DEFAULT_MAX_MSG_SIZE / 2)).map
            (fun part => (⟨[part]⟩ : ExpertResponse))
        ∧ ∀ t ∈ serialized, (split_for_streaming t (DEFAULT_MAX_MSG_SIZE / 2)).flatten = t :=
  c4_stream_fragmentation demoHandler [⟨"expert0", [[1], [2]]⟩] _ [(0, [1, 2])] rfl

/-- C7: the unary and streamed backward calls coincide with the corresponding
forward calls of the direction-swapped handler: same contracts, except that
the input tuple goes to the backward queue of the unit and the outputs are
serialized with its gradient-input schema. -/
theorem c7_backward_is_forward_swapped (H : ConnectionHandler T C) (request : ExpertRequest)
    (requests : List ExpertRequest) :
    H.rpc_backward request = H.swapDirections.rpc_forward request
    ∧ H.rpc_backward_stream requests = H.swapDirections.rpc_forward_stream requests := by
  have hget : ∀ uid : Option String,
      dictGetItem H.swapDirections.experts uid =
        (dictGetItem H.experts uid).map ExpertBackend.swapDirections := by
    intro uid
    cases uid with
    | none => rfl
    | some u =>
      simp only [ConnectionHandler.swapDirections, dictGetItem]
      rw [lookup_map_value ExpertBackend.swapDirections u H.experts]
      cases H.experts.lookup u <;> rfl
  constructor
  · simp only [ConnectionHandler.rpc_backward, ConnectionHandler.rpc_forward, hget]
    cases dictGetItem H.experts (some request.uid) <;> rfl
  · simp only [ConnectionHandler.rpc_backward_stream, ConnectionHandler.rpc_forward_stream]
    have hgather : H.swapDirections._gather_inputs requests = H._gather_inputs requests := rfl
    rw [hgather]
    split
    · rfl
    · rw [hget]
      rename_i u xs heq
      cases dictGetItem H.experts u <;> rfl

end Hivemind
